import Mathlib

/-!
Verification of the Task base-class contract of SCINE ReaDuct
(`src/Readuct/App/Tasks/Task.h`), as a shallow embedding.

Modelling choices, all driven by the source:
* `Utils::UniversalSettings::ValueCollection` is used by `Task.h` only as a
  bag of boolean options (`valueExists`, `extract` with a boolean default),
  so it is embedded as an association list `List (String × Bool)`; `extract`
  removes the key (map semantics: every binding of the key goes away) and
  returns the stored value, or the default when the key is absent.
* `Core::Log` emissions are modelled as returned lists of warning strings:
  a method that writes one warning message to `_logger->warning` returns a
  one-element list.  The `Log` value itself carries an identifier so the
  default-constructed sink installed by the `Task` constructor is visible.
* Calculators live in an explicit heap: a registry (`SystemsMap`) maps a
  system name to an address, the heap maps addresses to calculator state.
  `Calculator::clone()` allocates a fresh address holding a copy of the
  state, which is exactly what lets us state that mutating a clone never
  touches the original registry entry.
* Throwing C++ code is embedded with `Except String`.
-/

namespace Scine
namespace Readuct

/-! ### Settings bag (`Utils::UniversalSettings::ValueCollection`, boolean part) -/

/-- The settings bag, restricted to the boolean options `Task.h` reads. -/
abbrev ValueCollection := List (String × Bool)

/-- `ValueCollection::valueExists(key)`. -/
def valueExists (s : ValueCollection) (key : String) : Bool :=
  s.any (fun p => p.1 == key)

/-- The value stored under `key`, or `dflt` when the key is absent
(first binding wins; a real `ValueCollection` has unique keys). -/
def getValue (s : ValueCollection) (key : String) (dflt : Bool) : Bool :=
  match s.find? (fun p => p.1 == key) with
  | some p => p.2
  | none => dflt

/-- `ValueCollection::extract(key, dflt)`: returns the stored value (or the
default) and the bag with the key removed. -/
def extract (s : ValueCollection) (key : String) (dflt : Bool) :
    Bool × ValueCollection :=
  (getValue s key dflt, s.filter (fun p => p.1 != key))

/-! ### Logger (`Core::Log`) and the `Task` base class -/

/-- A diagnostic sink; `sinkId` distinguishes a caller-supplied sink from the
default-constructed one the `Task` constructor installs. -/
structure Log where
  sinkId : Nat
deriving DecidableEq

/-- The default-constructed `Core::Log` (`std::make_shared<Core::Log>()`). -/
def Log.defaultLog : Log := ⟨0⟩

/-- The `Task` base class state: `_input`, `_output`, `_logger`
(`Task.h`, protected members).  `_logger` is total: the constructor never
leaves it null. -/
structure Task where
  _input : List String
  _output : List String
  _logger : Log
deriving DecidableEq

/-- The `Task` constructor: stores the lists, replaces a null logger by a
default-constructed one, and throws `"No input systems specified!"` when the
input list is empty. -/
def mkTask (input output : List String) (logger : Option Log) :
    Except String Task :=
  let log := logger.getD Log.defaultLog
  if input.isEmpty then
    Except.error "No input systems specified!"
  else
    Except.ok ⟨input, output, log⟩

/-- `Task::input()`. -/
def Task.input (t : Task) : List String := t._input

/-- `Task::output()`. -/
def Task.output (t : Task) : List String := t._output

/-- The warning text of `Task::warningIfMultipleInputsGiven`. -/
def multipleInputsWarning : String :=
  "  Warning: More than one input system was specified. Only taking first and ignoring all others.\n"

/-- The warning text of `Task::warningIfMultipleOutputsGiven`. -/
def multipleOutputsWarning : String :=
  "  Warning: More than one output system was specified. Only taking first and ignoring all others.\n"

/-- `Task::warningIfMultipleInputsGiven`: the warnings it writes to the
task's sink.  A `const` method: it only reads `_input` and emits. -/
def Task.warningIfMultipleInputsGiven (t : Task) : List String :=
  if 1 < t._input.length then [multipleInputsWarning] else []

/-- `Task::warningIfMultipleOutputsGiven`: the warnings it writes to the
task's sink. -/
def Task.warningIfMultipleOutputsGiven (t : Task) : List String :=
  if 1 < t._output.length then [multipleOutputsWarning] else []

/-- The deprecation warning of `Task::stopOnErrorExtraction`. -/
def deprecationWarning : String :=
  "  The option 'allow_unconverged' is deprecated.\n" ++
  "  It has been replaced with 'stop_on_error',\n" ++
  "  which is now available for all tasks and is defaulted to 'true'.\n\n"

/-- `Task::stopOnErrorExtraction(taskSettings)`: returns the resolved
boolean, the bag after both extractions, and the warnings written to the
task's sink. -/
def Task.stopOnErrorExtraction (t : Task) (taskSettings : ValueCollection) :
    Bool × ValueCollection × List String :=
  if valueExists taskSettings "allow_unconverged" then
    let e1 := extract taskSettings "allow_unconverged" false
    let stopOnError := !e1.1
    let e2 := extract e1.2 "stop_on_error" stopOnError
    (e2.1, e2.2, [deprecationWarning])
  else
    let e2 := extract taskSettings "stop_on_error" true
    (e2.1, e2.2, [])

/-- The tail of `Task::falseTaskSettingsErrorMessage` after the task name
(the source builds it from these literals). -/
def falseTaskSettingsTail : String :=
  ",\n" ++ "  but the only possible setting for this task, are the\n" ++
  "  'stop_on_error' option to control whether ReaDuct fails\n" ++
  "  with a failed calculation or simply returns false\n" ++
  "  and the 'silent_stdout_calculator' option to control whether\n" ++
  "  the standard output of the calculator should be printed.\n" ++
  "  You might want to specify the settings you put into the task settings\n" ++
  "  in the systems section."

/-- `Task::falseTaskSettingsErrorMessage(name)`. -/
def falseTaskSettingsErrorMessage (name : String) : String :=
  "  You gave Task settings for the " ++ name ++ falseTaskSettingsTail

/-! ### Calculators, the heap and the systems registry -/

/-- The (opaque) state of one `Core::Calculator`. -/
abbrev CalcState := Nat

/-- The heap of calculator objects: `next` is the first unallocated
address. -/
structure Heap where
  next : Nat
  data : Nat → CalcState

/-- `Calculator::clone()` on the object at `addr`: allocates a fresh address
holding a copy of the state. -/
def Heap.clone (h : Heap) (addr : Nat) : Heap × Nat :=
  ({ next := h.next + 1,
     data := fun a => if a = h.next then h.data addr else h.data a },
   h.next)

/-- Mutation of the calculator at `addr` (what a task may later do to a
clone it obtained). -/
def Heap.write (h : Heap) (addr : Nat) (v : CalcState) : Heap :=
  { h with data := fun a => if a = addr then v else h.data a }

/-- `Task::SystemsMap`: system name to calculator address. -/
abbrev SystemsMap := List (String × Nat)

/-- `systems.find(name)` of `copyCalculator`. -/
def findSystem (systems : SystemsMap) (name : String) : Option Nat :=
  (systems.find? (fun p => p.1 == name)).map Prod.snd

/-- A heap is well formed for a registry when every registered address is
allocated. -/
def Heap.wf (h : Heap) (systems : SystemsMap) : Prop :=
  ∀ p ∈ systems, p.2 < h.next

/-- `Task::copyCalculator(systems, name, taskName)`: looks `name` up; if
absent throws `"System name '<name>' is missing in <taskName>"` (heap
untouched), else clones the stored calculator and returns the fresh
address. -/
def copyCalculator (h : Heap) (systems : SystemsMap) (name taskName : String) :
    Heap × Except String Nat :=
  match findSystem systems name with
  | none =>
      (h, Except.error ("System name '" ++ name ++ "' is missing in " ++ taskName))
  | some addr =>
      let c := h.clone addr
      (c.1, Except.ok c.2)

/-- Modelled from the spec: `Task::run` is pure virtual in `Task.h` and no
concrete task is among the sources.  Per the spec, with `testMode = true`
`run` "performs validation only ... and returns whether inputs are
well-formed, without performing calculation work or mutating the registry";
the validation checks that every input name exists in the registry. -/
def Task.runTestMode (t : Task) (systems : SystemsMap) : Bool × SystemsMap :=
  (t._input.all (fun n => systems.any (fun p => p.1 == n)), systems)

/-! ### Lemmas about the settings bag -/

/-- Filtering with `q` cannot change a `find?` that fails wherever `q`
does. -/
theorem find?_filter_of_imp {α : Type} (l : List α) (p q : α → Bool)
    (hpq : ∀ x, q x = false → p x = false) :
    (l.filter q).find? p = l.find? p := by
  induction l with
  | nil => rfl
  | cons a l ih =>
    cases hq : q a with
    | false => simp [List.filter_cons, List.find?_cons, hq, hpq a hq, ih]
    | true =>
      cases hp : p a with
      | false => simp [List.filter_cons, List.find?_cons, hq, hp, ih]
      | true => simp [List.filter_cons, List.find?_cons, hq, hp]

/-- Filtering with `q` cannot change an `any` that fails wherever `q`
does. -/
theorem any_filter_of_imp {α : Type} (l : List α) (p q : α → Bool)
    (hpq : ∀ x, q x = false → p x = false) :
    (l.filter q).any p = l.any p := by
  induction l with
  | nil => rfl
  | cons a l ih =>
    cases hq : q a with
    | false => simp [List.filter_cons, List.any_cons, hq, hpq a hq, ih]
    | true => simp [List.filter_cons, List.any_cons, hq, ih]

/-- Nothing kept by `q` satisfies `p` when the two exclude each other. -/
theorem any_filter_disjoint {α : Type} (l : List α) (p q : α → Bool)
    (hpq : ∀ x, q x = true → p x = false) :
    (l.filter q).any p = false := by
  induction l with
  | nil => rfl
  | cons a l ih =>
    cases hq : q a with
    | false => simp [List.filter_cons, hq, ih]
    | true => simp [List.filter_cons, List.any_cons, hq, hpq a hq, ih]

/-- Filtering with `q` keeps every element `p` would keep, when `q`
subsumes `p`. -/
theorem filter_filter_of_imp {α : Type} (l : List α) (p q : α → Bool)
    (hpq : ∀ x, q x = false → p x = false) :
    (l.filter q).filter p = l.filter p := by
  induction l with
  | nil => rfl
  | cons a l ih =>
    cases hq : q a with
    | false => simp [List.filter_cons, hq, hpq a hq, ih]
    | true => simp [List.filter_cons, hq, ih]

/-- For two distinct keys, dropping one cannot make the other's predicate
hold where it did not. -/
theorem key_imp (k k' : String) (hne : k ≠ k') :
    ∀ x : String × Bool, (x.1 != k') = false → (x.1 == k) = false := by
  intro x hx
  have hx' : x.1 = k' := by simpa using hx
  have hxk : x.1 ≠ k := fun hh => hne (by rw [← hh, hx'])
  simpa using hxk

/-- Removing one key does not change the lookup of another. -/
theorem find?_filter_ne (s : ValueCollection) (k k' : String) (hne : k ≠ k') :
    (s.filter (fun p => p.1 != k')).find? (fun p => p.1 == k) =
      s.find? (fun p => p.1 == k) :=
  find?_filter_of_imp s _ _ (key_imp k k' hne)

/-- Removing one key does not change the presence of another. -/
theorem any_filter_ne (s : ValueCollection) (k k' : String) (hne : k ≠ k') :
    (s.filter (fun p => p.1 != k')).any (fun p => p.1 == k) =
      s.any (fun p => p.1 == k) :=
  any_filter_of_imp s _ _ (key_imp k k' hne)

/-- After removing a key, that key is absent. -/
theorem any_filter_self (s : ValueCollection) (k : String) :
    (s.filter (fun p => p.1 != k)).any (fun p => p.1 == k) = false := by
  refine any_filter_disjoint s _ _ ?_
  intro x hx
  have hx' : x.1 ≠ k := by simpa using hx
  simpa using hx'

/-- Removing one key keeps the bindings of another intact. -/
theorem filter_eq_filter_ne (s : ValueCollection) (k k' : String)
    (hne : k ≠ k') :
    (s.filter (fun p => p.1 != k')).filter (fun p => p.1 == k) =
      s.filter (fun p => p.1 == k) :=
  filter_filter_of_imp s _ _ (key_imp k k' hne)

/-- `getValue` is unchanged by removal of a different key. -/
theorem getValue_filter_ne (s : ValueCollection) (k k' : String) (d : Bool)
    (hne : k ≠ k') :
    getValue (s.filter (fun p => p.1 != k')) k d = getValue s k d := by
  unfold getValue
  rw [find?_filter_ne s k k' hne]

/-- When the key is present the default of `getValue` is irrelevant. -/
theorem getValue_default_irrelevant (s : ValueCollection) (k : String)
    (d d' : Bool) (h : valueExists s k = true) :
    getValue s k d = getValue s k d' := by
  unfold getValue
  cases hf : s.find? (fun p => p.1 == k) with
  | some p => rfl
  | none =>
    exfalso
    obtain ⟨x, hx, hpx⟩ := List.any_eq_true.mp h
    exact (List.find?_eq_none.mp hf x hx) hpx

/-- When the key is absent `getValue` returns the default. -/
theorem getValue_absent (s : ValueCollection) (k : String) (d : Bool)
    (h : valueExists s k = false) :
    getValue s k d = d := by
  unfold getValue
  cases hf : s.find? (fun p => p.1 == k) with
  | some p =>
    exfalso
    have hm := List.mem_of_find?_eq_some hf
    have hp := List.find?_some hf
    have hany : s.any (fun p => p.1 == k) = true :=
      List.any_eq_true.mpr ⟨p, hm, hp⟩
    unfold valueExists at h
    rw [h] at hany
    exact Bool.noConfusion hany
  | none => rfl

/-! ### Theorems -/

/-- C4: for every output list and logger, constructing a `Task` with an
empty input list fails with the precondition error, and constructing it
with any non-empty input list succeeds (an empty output list is allowed). -/
theorem mkTask_empty_input_fails (output : List String) (logger : Option Log) :
    mkTask [] output logger = Except.error "No input systems specified!" ∧
    ∀ input : List String, input ≠ [] →
      ∃ t, mkTask input output logger = Except.ok t := by
  refine ⟨rfl, ?_⟩
  intro input hin
  cases input with
  | nil => exact absurd rfl hin
  | cons a l => exact ⟨_, rfl⟩

/-- Witness for C4 at `output = ["B"]`, no logger, `input = ["A"]`. -/
theorem mkTask_empty_input_fails_witness :
    mkTask [] ["B"] none = Except.error "No input systems specified!" ∧
    ∃ t, mkTask ["A"] ["B"] none = Except.ok t :=
  ⟨(mkTask_empty_input_fails ["B"] none).1,
   (mkTask_empty_input_fails ["B"] none).2 ["A"] (by decide)⟩

/-- C6: `warningIfMultipleInputsGiven` emits exactly one warning when the
input list has length greater than 1 and none otherwise, and
`warningIfMultipleOutputsGiven` does the same for the output list.  Both
are total pure functions of the task (the source methods are `const`), so
they cannot raise or change the task's state. -/
theorem warning_if_multiple_counts (t : Task) :
    t.warningIfMultipleInputsGiven.length =
      (if 1 < t._input.length then 1 else 0) ∧
    t.warningIfMultipleOutputsGiven.length =
      (if 1 < t._output.length then 1 else 0) := by
  constructor
  · by_cases h : 1 < t._input.length <;>
      simp [Task.warningIfMultipleInputsGiven, h]
  · by_cases h : 1 < t._output.length <;>
      simp [Task.warningIfMultipleOutputsGiven, h]

set_option maxRecDepth 100000 in
/-- C7: the message of `falseTaskSettingsErrorMessage name` contains the
task name and the substrings `stop_on_error` and
`silent_stdout_calculator`. -/
theorem falseTaskSettingsErrorMessage_mentions (name : String) :
    name.data <:+: (falseTaskSettingsErrorMessage name).data ∧
    "stop_on_error".data <:+: (falseTaskSettingsErrorMessage name).data ∧
    "silent_stdout_calculator".data <:+: (falseTaskSettingsErrorMessage name).data := by
  have hmsg : (falseTaskSettingsErrorMessage name).data =
      "  You gave Task settings for the ".data ++ name.data ++
        falseTaskSettingsTail.data := by
    unfold falseTaskSettingsErrorMessage
    rw [String.data_append, String.data_append]
  have htail : falseTaskSettingsTail.data <:+:
      (falseTaskSettingsErrorMessage name).data :=
    ⟨"  You gave Task settings for the ".data ++ name.data, [],
     by rw [hmsg]; simp⟩
  refine ⟨⟨"  You gave Task settings for the ".data,
           falseTaskSettingsTail.data, by rw [hmsg]⟩, ?_, ?_⟩
  · exact List.IsInfix.trans (by decide) htail
  · exact List.IsInfix.trans (by decide) htail

/-- C8: a successfully constructed `Task` returns through `input()` and
`output()` exactly the sequences supplied at construction; both accessors
are pure, so they have no side effect on the task, a registry or a sink. -/
theorem task_accessors_spec (input output : List String) (logger : Option Log)
    (t : Task) (h : mkTask input output logger = Except.ok t) :
    t.input = input ∧ t.output = output := by
  unfold mkTask at h
  cases input with
  | nil => exact Except.noConfusion h
  | cons a l =>
    injection h with h2
    subst h2
    exact ⟨rfl, rfl⟩

/-- Witness for C8 at `input = ["A"]`, `output = ["B"]`, no logger. -/
theorem task_accessors_spec_witness :
    (⟨["A"], ["B"], Log.defaultLog⟩ : Task).input = ["A"] ∧
    (⟨["A"], ["B"], Log.defaultLog⟩ : Task).output = ["B"] :=
  task_accessors_spec ["A"] ["B"] none ⟨["A"], ["B"], Log.defaultLog⟩ rfl

/-- C9: constructing a `Task` with a non-empty input list and no sink (a
null `logger`) succeeds and installs the default-constructed sink, so the
task always holds a valid sink for every later warning emission. -/
theorem mkTask_installs_default_logger (input output : List String)
    (hin : input ≠ []) :
    ∃ t, mkTask input output none = Except.ok t ∧
      t._logger = Log.defaultLog := by
  cases input with
  | nil => exact absurd rfl hin
  | cons a l => exact ⟨⟨a :: l, output, Log.defaultLog⟩, rfl, rfl⟩

/-- Witness for C9 at `input = ["A"]`, empty output list. -/
theorem mkTask_installs_default_logger_witness :
    ∃ t, mkTask ["A"] [] none = Except.ok t ∧ t._logger = Log.defaultLog :=
  mkTask_installs_default_logger ["A"] [] (by decide)

/-- C5: when every input name of the task exists in the registry, running
in test mode returns `true` and leaves the registry exactly as it was: no
output entry is added and no existing entry is changed. -/
theorem run_test_mode_validates_only (t : Task) (systems : SystemsMap)
    (h : ∀ n ∈ t._input, systems.any (fun p => p.1 == n) = true) :
    t.runTestMode systems = (true, systems) := by
  unfold Task.runTestMode
  rw [List.all_eq_true.mpr h]

/-- Witness for C5: registry `{"A"}` and a task with input `["A"]`,
output `["B"]`. -/
theorem run_test_mode_validates_only_witness :
    (⟨["A"], ["B"], Log.defaultLog⟩ : Task).runTestMode [("A", 0)] =
      (true, [("A", 0)]) :=
  run_test_mode_validates_only ⟨["A"], ["B"], Log.defaultLog⟩ [("A", 0)]
    (by decide)

/-- C1: `stopOnErrorExtraction` returns the value of `stop_on_error` when
that key is present; otherwise the negation of `allow_unconverged` when
that key is present; otherwise `true`. -/
theorem stopOnErrorExtraction_value (t : Task) (s : ValueCollection) :
    (t.stopOnErrorExtraction s).1 =
      (if valueExists s "stop_on_error" then getValue s "stop_on_error" true
       else if valueExists s "allow_unconverged" then
         !(getValue s "allow_unconverged" false)
       else true) := by
  unfold Task.stopOnErrorExtraction extract
  by_cases hA : valueExists s "allow_unconverged" = true
  · rw [if_pos hA]
    by_cases hS : valueExists s "stop_on_error" = true
    · rw [if_pos hS]
      show getValue (s.filter (fun p => p.1 != "allow_unconverged"))
          "stop_on_error" (!getValue s "allow_unconverged" false) =
        getValue s "stop_on_error" true
      rw [getValue_filter_ne s "stop_on_error" "allow_unconverged" _ (by decide)]
      exact getValue_default_irrelevant s "stop_on_error" _ true hS
    · have hS' : valueExists s "stop_on_error" = false := by simpa using hS
      rw [if_neg hS, if_pos hA]
      show getValue (s.filter (fun p => p.1 != "allow_unconverged"))
          "stop_on_error" (!getValue s "allow_unconverged" false) =
        !getValue s "allow_unconverged" false
      rw [getValue_filter_ne s "stop_on_error" "allow_unconverged" _ (by decide)]
      exact getValue_absent s "stop_on_error" _ hS'
  · rw [if_neg hA]
    by_cases hS : valueExists s "stop_on_error" = true
    · rw [if_pos hS]
    · have hS' : valueExists s "stop_on_error" = false := by simpa using hS
      rw [if_neg hS, if_neg hA]
      exact getValue_absent s "stop_on_error" _ hS'

/-- C2: `stopOnErrorExtraction` emits exactly one deprecation warning iff
`allow_unconverged` is present; afterwards neither `allow_unconverged` nor
`stop_on_error` is in the bag; the bindings of every other key are
untouched. -/
theorem stopOnErrorExtraction_frame (t : Task) (s : ValueCollection)
    (k : String) (hk1 : k ≠ "allow_unconverged") (hk2 : k ≠ "stop_on_error") :
    (t.stopOnErrorExtraction s).2.2.length =
      (if valueExists s "allow_unconverged" then 1 else 0) ∧
    valueExists (t.stopOnErrorExtraction s).2.1 "allow_unconverged" = false ∧
    valueExists (t.stopOnErrorExtraction s).2.1 "stop_on_error" = false ∧
    (t.stopOnErrorExtraction s).2.1.filter (fun p => p.1 == k) =
      s.filter (fun p => p.1 == k) := by
  unfold Task.stopOnErrorExtraction extract valueExists
  by_cases hA : valueExists s "allow_unconverged" = true
  · unfold valueExists at hA
    simp only [hA, if_true]
    refine ⟨rfl, ?_, ?_, ?_⟩
    · rw [any_filter_ne _ _ _ (by decide)]
      exact any_filter_self s "allow_unconverged"
    · exact any_filter_self _ "stop_on_error"
    · rw [filter_eq_filter_ne _ _ _ hk2, filter_eq_filter_ne _ _ _ hk1]
  · have hA' : valueExists s "allow_unconverged" = false :=
      Bool.not_eq_true _ ▸ hA
    unfold valueExists at hA'
    simp only [hA', Bool.false_eq_true, if_false]
    refine ⟨rfl, ?_, ?_, ?_⟩
    · rw [any_filter_ne _ _ _ (by decide)]
      exact hA'
    · exact any_filter_self s "stop_on_error"
    · rw [filter_eq_filter_ne _ _ _ hk2]

/-- Witness for C2 at the bag
`{allow_unconverged: true, stop_on_error: true, x: false}` and `k = "x"`. -/
theorem stopOnErrorExtraction_frame_witness :
    ((⟨["A"], [], Log.defaultLog⟩ : Task).stopOnErrorExtraction
        [("allow_unconverged", true), ("stop_on_error", true), ("x", false)]).2.2.length =
      (if valueExists
            [("allow_unconverged", true), ("stop_on_error", true), ("x", false)]
            "allow_unconverged" then 1 else 0) ∧
    valueExists
      ((⟨["A"], [], Log.defaultLog⟩ : Task).stopOnErrorExtraction
        [("allow_unconverged", true), ("stop_on_error", true), ("x", false)]).2.1
      "allow_unconverged" = false ∧
    valueExists
      ((⟨["A"], [], Log.defaultLog⟩ : Task).stopOnErrorExtraction
        [("allow_unconverged", true), ("stop_on_error", true), ("x", false)]).2.1
      "stop_on_error" = false ∧
    ((⟨["A"], [], Log.defaultLog⟩ : Task).stopOnErrorExtraction
        [("allow_unconverged", true), ("stop_on_error", true), ("x", false)]).2.1.filter
        (fun p => p.1 == "x") =
      [("allow_unconverged", true), ("stop_on_error", true), ("x", false)].filter
        (fun p => p.1 == "x") :=
  stopOnErrorExtraction_frame ⟨["A"], [], Log.defaultLog⟩
    [("allow_unconverged", true), ("stop_on_error", true), ("x", false)]
    "x" (by decide) (by decide)

/-- C3: `copyCalculator` on an absent name fails with an error naming both
the missing system and the task; on a present name it returns a clone at a
fresh address whose state equals the original's, and writing to the clone
leaves the original registry entry's state untouched. -/
theorem copyCalculator_spec (h : Heap) (systems : SystemsMap)
    (name taskName : String) :
    (findSystem systems name = none →
      (copyCalculator h systems name taskName).2 =
        Except.error
          ("System name '" ++ name ++ "' is missing in " ++ taskName) ∧
      name.data <:+:
        ("System name '" ++ name ++ "' is missing in " ++ taskName).data ∧
      taskName.data <:+:
        ("System name '" ++ name ++ "' is missing in " ++ taskName).data) ∧
    (∀ addr, findSystem systems name = some addr → Heap.wf h systems →
      ∃ h2 a2, copyCalculator h systems name taskName = (h2, Except.ok a2) ∧
        h2.data a2 = h.data addr ∧
        ∀ v, (h2.write a2 v).data addr = h.data addr) := by
  constructor
  · intro hnone
    unfold copyCalculator
    rw [hnone]
    refine ⟨rfl, ?_, ?_⟩
    · exact ⟨"System name '".data, "' is missing in ".data ++ taskName.data,
        by simp [String.data_append]⟩
    · exact ⟨("System name '" ++ name ++ "' is missing in ").data, [],
        by simp [String.data_append]⟩
  · intro addr hsome hwf
    have haddr : addr < h.next := by
      unfold findSystem at hsome
      cases hf : systems.find? (fun p => p.1 == name) with
      | none => rw [hf] at hsome; exact Option.noConfusion hsome
      | some p =>
        rw [hf] at hsome
        have hp2 : p.2 = addr := Option.some.inj hsome
        exact hp2 ▸ hwf p (List.mem_of_find?_eq_some hf)
    refine ⟨(h.clone addr).1, (h.clone addr).2, ?_, ?_, ?_⟩
    · unfold copyCalculator
      rw [hsome]
    · simp [Heap.clone]
    · intro v
      have hne : addr ≠ h.next := Nat.ne_of_lt haddr
      simp [Heap.clone, Heap.write, hne]

/-- Witness for C3: the failure case on a registry without `"X"` and the
success case on registry `{"A" ↦ 0}` with a one-object heap holding
state `7`. -/
theorem copyCalculator_spec_witness :
    ((copyCalculator ⟨1, fun _ => 7⟩ [("A", 0)] "X" "MyTask").2 =
        Except.error ("System name '" ++ "X" ++ "' is missing in " ++ "MyTask") ∧
      "X".data <:+:
        ("System name '" ++ "X" ++ "' is missing in " ++ "MyTask").data ∧
      "MyTask".data <:+:
        ("System name '" ++ "X" ++ "' is missing in " ++ "MyTask").data) ∧
    ∃ h2 a2,
      copyCalculator ⟨1, fun _ => 7⟩ [("A", 0)] "A" "MyTask" =
        (h2, Except.ok a2) ∧
      h2.data a2 = (⟨1, fun _ => 7⟩ : Heap).data 0 ∧
      ∀ v, (h2.write a2 v).data 0 = (⟨1, fun _ => 7⟩ : Heap).data 0 :=
  ⟨(copyCalculator_spec ⟨1, fun _ => 7⟩ [("A", 0)] "X" "MyTask").1 rfl,
   (copyCalculator_spec ⟨1, fun _ => 7⟩ [("A", 0)] "A" "MyTask").2 0 rfl
    (by
      show ∀ p ∈ ([("A", 0)] : SystemsMap), p.2 < 1
      decide)⟩

/-- C10: `copyCalculator` never touches the registry: on failure the heap
is returned untouched, and in every case the state stored at each
registered address is the same afterwards (the list of entries itself is
never modified). -/
theorem copyCalculator_preserves_registry (h : Heap) (systems : SystemsMap)
    (name taskName : String) (hwf : Heap.wf h systems) :
    (findSystem systems name = none →
      (copyCalculator h systems name taskName).1 = h) ∧
    ∀ p ∈ systems,
      (copyCalculator h systems name taskName).1.data p.2 = h.data p.2 := by
  unfold copyCalculator
  cases hf : findSystem systems name with
  | none => exact ⟨fun _ => rfl, fun p _ => rfl⟩
  | some addr =>
    refine ⟨fun hc => Option.noConfusion hc, ?_⟩
    intro p hp
    have hne : p.2 ≠ h.next := Nat.ne_of_lt (hwf p hp)
    simp [Heap.clone, hne]

/-- Witness for C10: registry `{"A" ↦ 0}`; the failing lookup of `"X"`
returns the heap untouched and the successful lookup of `"A"` keeps the
state stored under `"A"`. -/
theorem copyCalculator_preserves_registry_witness :
    (copyCalculator ⟨1, fun _ => 7⟩ [("A", 0)] "X" "MyTask").1 =
      (⟨1, fun _ => 7⟩ : Heap) ∧
    (copyCalculator ⟨1, fun _ => 7⟩ [("A", 0)] "A" "MyTask").1.data 0 =
      (⟨1, fun _ => 7⟩ : Heap).data 0 :=
  ⟨(copyCalculator_preserves_registry ⟨1, fun _ => 7⟩ [("A", 0)] "X" "MyTask"
      (by
        show ∀ p ∈ ([("A", 0)] : SystemsMap), p.2 < 1
        decide)).1 rfl,
   (copyCalculator_preserves_registry ⟨1, fun _ => 7⟩ [("A", 0)] "A" "MyTask"
      (by
        show ∀ p ∈ ([("A", 0)] : SystemsMap), p.2 < 1
        decide)).2
    ("A", 0) (by decide)⟩

end Readuct
end Scine
